import Mathlib

set_option autoImplicit false

/-
Shallow embedding of the context-resolution and multi-platform credential
core of the quant-cloud-cli repository:

  * src/utils/config.ts      (credential store, migration, platform ops)
  * src/utils/project-config.ts (directory walk for .quant.yml)
  * src/utils/context.ts     (effective-context resolution)
  * src/commands/login.ts    (OAuth PKCE login flow, modelled over an
                              oracle for the network/browser interactions)

JavaScript objects used as string-keyed maps are modelled as association
lists in insertion order (JS object keys are unique and enumerate in
insertion order for these string keys).  JS truthiness of optional string
values (undefined and "" are falsy) is modelled by `jsTruthy`.  The
persisted credentials file is modelled by `StoredFile`: absent/unparsable,
a legacy bare AuthConfig JSON, or a multi-platform JSON.  Every operation
that in the source reads and/or writes the file threads a `StoredFile`
value explicitly.
-/

namespace QuantCloudCLI

/-- JS truthiness for `string | undefined` values: `undefined` and the empty
string are falsy, every other string is truthy. -/
def jsTruthy : Option String → Bool
  | none => false
  | some s => !s.isEmpty

/-- JS `a || b` on `string | undefined` values. -/
def jsOr (a b : Option String) : Option String :=
  if jsTruthy a then a else b

namespace JsObj

/-- Lookup `obj[key]` in a JS object modelled as an insertion-ordered
association list (first matching key; keys are unique in well-formed
objects). -/
def lookup {α : Type} : List (String × α) → String → Option α
  | [], _ => none
  | (k, v) :: rest, key => if k = key then some v else lookup rest key

/-- Assignment `obj[key] = v`: replaces the value in place if the key is
present, otherwise appends the new key at the end (JS insertion order). -/
def set {α : Type} : List (String × α) → String → α → List (String × α)
  | [], key, v => [(key, v)]
  | (k, w) :: rest, key, v =>
    if k = key then (k, v) :: rest else (k, w) :: set rest key v

/-- Deletion `delete obj[key]`. -/
def del {α : Type} (l : List (String × α)) (key : String) : List (String × α) :=
  l.filter (fun p => p.1 ≠ key)

/-- Enumeration `Object.keys(obj)` in insertion order. -/
def keys {α : Type} (l : List (String × α)) : List String :=
  l.map Prod.fst

end JsObj

/- ------------------------------------------------------------------ -/
/- Data model (src/types/auth.ts)                                      -/
/- ------------------------------------------------------------------ -/

structure Role where
  name : String
  display_name : String
deriving DecidableEq, Repr

structure Organization where
  id : Int
  name : String
  machine_name : String
  roles : List Role
deriving DecidableEq, Repr

structure AuthConfig where
  token : String
  refreshToken : Option String := none
  expiresAt : Option String := none
  email : Option String := none
  host : String
  organizations : Option (List Organization) := none
  activeOrganization : Option String := none
  activeApplication : Option String := none
  activeEnvironment : Option String := none
deriving DecidableEq, Repr

structure PlatformInfo where
  id : String
  name : String
  host : String
  description : Option String := none
deriving DecidableEq, Repr

/-- One value of the `platforms` record: `AuthConfig & { platformInfo }`. -/
structure PlatformEntry where
  auth : AuthConfig
  platformInfo : PlatformInfo
deriving DecidableEq, Repr

structure MultiPlatformConfig where
  activePlatform : Option String := none
  platforms : List (String × PlatformEntry) := []
deriving DecidableEq, Repr

/-- State of the persisted credentials file (`~/.quant/credentials`):
absent or unparsable JSON, a legacy bare `AuthConfig` document (no
`platforms` key), or a `MultiPlatformConfig` document. -/
inductive StoredFile where
  | absent
  | legacy (a : AuthConfig)
  | multi (c : MultiPlatformConfig)
deriving DecidableEq, Repr

/- ------------------------------------------------------------------ -/
/- src/utils/config.ts                                                 -/
/- ------------------------------------------------------------------ -/

/-- Substring test, JS `haystack.includes(needle)`. -/
def containsSubstr (pat : List Char) : List Char → Bool
  | [] => pat.isEmpty
  | c :: cs => List.isPrefixOf pat (c :: cs) || containsSubstr pat cs

/-- First-occurrence removal of `https://` or `http://`, JS
`host.replace(/https?:\x2f\x2f/, '')` (non-global regex: only the first
match, scanning left to right, is removed). -/
def stripProtocolAux : List Char → List Char
  | [] => []
  | c :: cs =>
    if List.isPrefixOf "https://".toList (c :: cs) then List.drop 8 (c :: cs)
    else if List.isPrefixOf "http://".toList (c :: cs) then List.drop 7 (c :: cs)
    else c :: stripProtocolAux cs

/-- One character of the custom-endpoint slug, JS
`.replace(/[^a-zA-Z0-9-]/g, '-')`: every character outside
`[a-zA-Z0-9-]` is replaced (individually) by a hyphen. -/
def slugChar (c : Char) : Char :=
  if c.isAlpha || c.isDigit || c == '-' then c else '-'

/-- The custom-endpoint id computed by `generatePlatformInfo`. -/
def hostSlug (host : String) : String :=
  String.mk ((stripProtocolAux host.toList).map slugChar)

/-- Embeds `generatePlatformInfo` of src/utils/config.ts. -/
def generatePlatformInfo (host : String) : PlatformInfo :=
  if containsSubstr "quantgov.cloud".toList host.toList then
    { id := "quantgov", name := "QuantGov Cloud", host := host,
      description := some "Government & Enterprise Platform" }
  else if containsSubstr "quantcdn.io".toList host.toList then
    { id := "quantcdn", name := "Quant Cloud", host := host,
      description := some "Content Delivery Platform" }
  else
    { id := hostSlug host, name := "Custom Endpoint", host := host,
      description := some host }

/-- Embeds `migrateSinglePlatformConfig`: wraps a legacy bare AuthConfig
into a one-entry multi-platform config and persists it (the returned
`StoredFile` is the file content after its `saveMultiPlatformConfig`
call). -/
def migrateSinglePlatformConfig (authConfig : AuthConfig) :
    MultiPlatformConfig × StoredFile :=
  let platformInfo := generatePlatformInfo authConfig.host
  let multiConfig : MultiPlatformConfig :=
    { activePlatform := some platformInfo.id,
      platforms := [(platformInfo.id, ⟨authConfig, platformInfo⟩)] }
  (multiConfig, .multi multiConfig)

/-- Embeds `loadMultiPlatformConfig`: a read failure yields the empty
config without touching the file; a document that already has a
`platforms` key is returned as is; a legacy document is migrated (which
writes the upgraded shape back). -/
def loadMultiPlatformConfig : StoredFile → MultiPlatformConfig × StoredFile
  | .absent => ({ activePlatform := none, platforms := [] }, .absent)
  | .multi c => (c, .multi c)
  | .legacy a => migrateSinglePlatformConfig a

/-- Embeds `getActivePlatformConfig`: load, then return the AuthConfig
part of the active platform's entry (platformInfo stripped), or `null`
when no (truthy) active platform resolves. -/
def getActivePlatformConfig (f : StoredFile) : Option AuthConfig × StoredFile :=
  let r := loadMultiPlatformConfig f
  match r.1.activePlatform with
  | none => (none, r.2)
  | some k =>
    if k.isEmpty then (none, r.2)
    else
      match JsObj.lookup r.1.platforms k with
      | none => (none, r.2)
      | some e => (some e.auth, r.2)

/-- Embeds `savePlatformConfig`: load, upsert the entry, then set the
platform active when no active platform was set (JS-falsy) or the store
now holds exactly one platform, and persist. -/
def savePlatformConfig (platformId : String) (authConfig : AuthConfig)
    (platformInfo : PlatformInfo) (f : StoredFile) : StoredFile :=
  let r := loadMultiPlatformConfig f
  let platforms1 := JsObj.set r.1.platforms platformId ⟨authConfig, platformInfo⟩
  let active1 :=
    if !(jsTruthy r.1.activePlatform) || platforms1.length == 1 then
      some platformId
    else r.1.activePlatform
  .multi { activePlatform := active1, platforms := platforms1 }

/-- Embeds `switchPlatform`: sets `activePlatform` to an existing key and
persists; returns false without a save when the key is absent (the load
step may still have migrated a legacy file). -/
def switchPlatform (platformId : String) (f : StoredFile) : Bool × StoredFile :=
  let r := loadMultiPlatformConfig f
  match JsObj.lookup r.1.platforms platformId with
  | none => (false, r.2)
  | some _ =>
    (true, .multi { r.1 with activePlatform := some platformId })

/-- Embeds `removePlatform`: deletes an existing entry; when the deleted
entry was the active one, reassigns `activePlatform` to the first
remaining key (`Object.keys(...)[0]`) or clears it; returns false without
a save when the key is absent (the load step may still have migrated a
legacy file). -/
def removePlatform (platformId : String) (f : StoredFile) : Bool × StoredFile :=
  let r := loadMultiPlatformConfig f
  match JsObj.lookup r.1.platforms platformId with
  | none => (false, r.2)
  | some _ =>
    let platforms1 := JsObj.del r.1.platforms platformId
    let active1 :=
      if r.1.activePlatform == some platformId then
        match JsObj.keys platforms1 with
        | [] => none
        | k :: _ => some k
      else r.1.activePlatform
    (true, .multi { activePlatform := active1, platforms := platforms1 })

/-- Partial update (`Partial<AuthConfig>`) for `saveActivePlatformConfig`:
`some x` models a key present in the update object with value `x`. -/
structure AuthPatch where
  token : Option String := none
  refreshToken : Option (Option String) := none
  expiresAt : Option (Option String) := none
  email : Option (Option String) := none
  host : Option String := none
  organizations : Option (Option (List Organization)) := none
  activeOrganization : Option (Option String) := none
  activeApplication : Option (Option String) := none
  activeEnvironment : Option (Option String) := none
deriving DecidableEq, Repr

/-- JS object spread `{ ...current, ...updates }` on AuthConfig fields. -/
def applyPatch (a : AuthConfig) (p : AuthPatch) : AuthConfig :=
  { token := p.token.getD a.token,
    refreshToken := p.refreshToken.getD a.refreshToken,
    expiresAt := p.expiresAt.getD a.expiresAt,
    email := p.email.getD a.email,
    host := p.host.getD a.host,
    organizations := p.organizations.getD a.organizations,
    activeOrganization := p.activeOrganization.getD a.activeOrganization,
    activeApplication := p.activeApplication.getD a.activeApplication,
    activeEnvironment := p.activeEnvironment.getD a.activeEnvironment }

/-- Embeds `saveActivePlatformConfig`: throws when no (truthy) active
platform is set or its entry is missing (the load step's migration write,
if any, survives); otherwise merges the updates onto the active entry's
AuthConfig fields, preserving `platformInfo`, and persists. -/
def saveActivePlatformConfig (updates : AuthPatch) (f : StoredFile) :
    Except String Unit × StoredFile :=
  let r := loadMultiPlatformConfig f
  match r.1.activePlatform with
  | none => (.error "No active platform set", r.2)
  | some k =>
    if k.isEmpty then (.error "No active platform set", r.2)
    else
      match JsObj.lookup r.1.platforms k with
      | none => (.error "Active platform configuration not found", r.2)
      | some entry =>
        let updatedAuth := applyPatch entry.auth updates
        (.ok (),
         .multi { r.1 with
                  platforms := JsObj.set r.1.platforms k
                    ⟨updatedAuth, entry.platformInfo⟩ })

/- ------------------------------------------------------------------ -/
/- src/utils/project-config.ts                                         -/
/- ------------------------------------------------------------------ -/

/-- One directory on the upward walk of `findProjectConfigFile`:
whether it holds a `.quant.yml` file, whether it holds a `.git` entry
(version-control root marker), and its path. -/
structure Dir where
  hasConfig : Bool
  hasGit : Bool
  path : String
deriving DecidableEq, Repr

/-- Embeds the loop of `findProjectConfigFile`: the argument lists the
directories visited by the walk, from the start directory upward (the
source's loop stops before the filesystem root, so the root directory is
not part of the walk).  At each directory: return the config path if
`.quant.yml` exists there; otherwise stop with `null` if `.git` exists
there; otherwise continue with the parent. -/
def findProjectConfigFile : List Dir → Option String
  | [] => none
  | d :: rest =>
    if d.hasConfig then some (d.path ++ "/.quant.yml")
    else if d.hasGit then none
    else findProjectConfigFile rest

/- ------------------------------------------------------------------ -/
/- src/utils/context.ts                                                -/
/- ------------------------------------------------------------------ -/

structure ContextOverrides where
  platform : Option String := none
  org : Option String := none
  app : Option String := none
  env : Option String := none
deriving DecidableEq, Repr

structure ProjectConfig where
  platform : Option String := none
  org : Option String := none
  app : Option String := none
  env : Option String := none
deriving DecidableEq, Repr

structure EffectiveContext where
  token : String
  host : String
  email : Option String := none
  expiresAt : Option String := none
  activeOrganization : Option String := none
  activeApplication : Option String := none
  activeEnvironment : Option String := none
  organizations : Option (List Organization) := none
deriving DecidableEq, Repr

/-- Embeds `resolveEffectiveContext`: reads the active platform's
AuthConfig from the credential store (the project config, read from the
filesystem in the source, is passed in directly), fails when no
authenticated record with a truthy token exists, and otherwise layers
each of org/app/env as `override || projectConfig || stored`. -/
def resolveEffectiveContext (overrides : ContextOverrides)
    (projectConfig : ProjectConfig) (f : StoredFile) :
    Except String EffectiveContext × StoredFile :=
  let r := getActivePlatformConfig f
  match r.1 with
  | none =>
    (.error "Not authenticated. Run quant-cloud login to authenticate.", r.2)
  | some auth =>
    if auth.token.isEmpty then
      (.error "Not authenticated. Run quant-cloud login to authenticate.", r.2)
    else
      (.ok { token := auth.token,
             host := auth.host,
             email := auth.email,
             expiresAt := auth.expiresAt,
             organizations := auth.organizations,
             activeOrganization :=
               jsOr overrides.org (jsOr projectConfig.org auth.activeOrganization),
             activeApplication :=
               jsOr overrides.app (jsOr projectConfig.app auth.activeApplication),
             activeEnvironment :=
               jsOr overrides.env (jsOr projectConfig.env auth.activeEnvironment) },
       r.2)

/- ------------------------------------------------------------------ -/
/- src/commands/login.ts                                               -/
/- ------------------------------------------------------------------ -/

/-- Fields of the parsed credentials file when read through the legacy
`loadAuthConfig` and accessed as an AuthConfig, as `handleLogin` does.  A
multi-platform document parses successfully but its top level has no
`token`/`expiresAt`/`email` keys, so those reads yield `undefined`. -/
structure AuthView where
  token : Option String
  expiresAt : Option String
  email : Option String
deriving DecidableEq, Repr

/-- Embeds `loadAuthConfig` as used by `handleLogin`: parse failure gives
`null`; a legacy document gives its own fields; a multi-platform document
gives an object whose AuthConfig-typed fields read as `undefined`. -/
def loadAuthConfig : StoredFile → Option AuthView
  | .absent => none
  | .legacy a => some ⟨some a.token, a.expiresAt, a.email⟩
  | .multi _ => some ⟨none, none, none⟩

/-- Embeds `isTokenExpired`: a record with a falsy `expiresAt` is never
expired; otherwise the current time is compared with the parsed expiry
(`parseTime` abstracts JS `Date` parsing; `none` models an Invalid Date,
whose NaN comparison is false). -/
def isTokenExpired (parseTime : String → Option Int) (now : Int)
    (auth : AuthView) : Bool :=
  match auth.expiresAt with
  | none => false
  | some s =>
    if s.isEmpty then false
    else
      match parseTime s with
      | none => false
      | some t => decide (t ≤ now)

structure TokenData where
  access_token : String
  refresh_token : Option String := none
  expires_in : Int
deriving DecidableEq, Repr

structure UserInfo where
  email : String
  name : String
  organizations : List Organization
deriving DecidableEq, Repr

/-- What the local callback server observes during one login attempt:
either a request on `/callback` with its `error`/`state`/`code` query
parameters (absent parameters are `none`), or no request before the
5-minute timeout fires. -/
inductive CallbackEvent where
  | request (error state code : Option String)
  | timeout
deriving DecidableEq, Repr

/-- Oracle for one login attempt's nondeterministic environment: the
`state` nonce generated for the attempt, the callback outcome, the token
endpoint's response, the user-info endpoint's response, the current time,
and the JS `Date` parse/format functions. -/
structure OAuthEnv where
  state : String
  callback : CallbackEvent
  tokenResp : Except String TokenData
  userResp : Except String UserInfo
  now : Int
  parseTime : String → Option Int
  formatTime : Int → String

/-- Embeds `startCallbackServer`'s handling of its terminal outcomes: an
`error` parameter rejects with an OAuth error; a `state` different from
the expected one rejects with a state mismatch; otherwise a truthy `code`
resolves with it; a request with no code never settles the promise, so
the timeout rejection fires, as it does when no request arrives. -/
def startCallbackServer (expectedState : String) :
    CallbackEvent → Except String (Option String)
  | .timeout => .error "Authentication timeout"
  | .request err st code =>
    if jsTruthy err then .error ("OAuth error: " ++ err.getD "")
    else if st == some expectedState then
      if jsTruthy code then .ok code
      else .error "Authentication timeout"
    else .error "Invalid state parameter"

structure ServiceOption where
  name : String
  value : String
  host : String
  description : String
deriving DecidableEq, Repr

inductive LoginResult where
  | alreadyAuthenticated
  | success
  | failure (msg : String)
deriving DecidableEq, Repr

/-- The already-authenticated short-circuit condition of `handleLogin`:
`existingAuth && existingAuth.token && !isTokenExpired(existingAuth)`. -/
def loginShortCircuits (parseTime : String → Option Int) (now : Int)
    (f : StoredFile) : Bool :=
  match loadAuthConfig f with
  | none => false
  | some v => jsTruthy v.token && !(isTokenExpired parseTime now v)

/-- Embeds `handleLogin`'s store-relevant behavior: short-circuit when
already authenticated; pick the custom endpoint when `--endpoint` is
truthy, else the interactively selected service; run the callback wait,
the token exchange, and the user-info fetch, aborting with no write on
any failure; on full success assemble the AuthConfig and persist it with
`saveAuthConfig`, which overwrites the credentials file with the bare
(legacy-shaped) AuthConfig document. -/
def handleLogin (envr : OAuthEnv) (endpointOpt : Option String)
    (selected : ServiceOption) (f : StoredFile) : LoginResult × StoredFile :=
  if loginShortCircuits envr.parseTime envr.now f then
    (.alreadyAuthenticated, f)
  else
    let service : ServiceOption :=
      if jsTruthy endpointOpt then
        { name := "Custom Endpoint", value := "custom",
          host := endpointOpt.getD "", description := endpointOpt.getD "" }
      else selected
    match startCallbackServer envr.state envr.callback with
    | .error m => (.failure m, f)
    | .ok authCode =>
      if !(jsTruthy authCode) then
        (.failure "Failed to receive authorization code", f)
      else
        match envr.tokenResp with
        | .error m => (.failure ("Token exchange failed: " ++ m), f)
        | .ok tokenData =>
          match envr.userResp with
          | .error m => (.failure m, f)
          | .ok userInfo =>
            let authConfig : AuthConfig :=
              { token := tokenData.access_token,
                refreshToken := tokenData.refresh_token,
                expiresAt :=
                  some (envr.formatTime (envr.now + tokenData.expires_in * 1000)),
                email := some userInfo.email,
                host := service.host,
                organizations := some userInfo.organizations,
                activeOrganization :=
                  match userInfo.organizations with
                  | [] => none
                  | o :: _ => some o.machine_name }
            (.success, .legacy authConfig)

/- ------------------------------------------------------------------ -/
/- Spec-side definitions and observers                                 -/
/- ------------------------------------------------------------------ -/

/-- Stated from the spec's layering rule (§4.3), for comparison with the
code's resolution: the effective value is the CLI override if provided,
else the project config's field if present, else the stored active-*
field, else undefined. -/
def specLayeredValue (cli proj stored : Option String) : Option String :=
  match cli with
  | some v => some v
  | none =>
    match proj with
    | some w => some w
    | none => stored

/-- Stated from the spec's migration rule, for comparison with the code's
`hostSlug`: every run of consecutive non-alphanumeric characters becomes
a single hyphen.  The flag records whether the previous character was
part of such a run. -/
def specCollapseRuns : Bool → List Char → List Char
  | _, [] => []
  | inRun, c :: cs =>
    if c.isAlpha || c.isDigit then c :: specCollapseRuns false cs
    else if inRun then specCollapseRuns true cs
    else '-' :: specCollapseRuns true cs

/-- Stated from the spec's migration rule: protocol stripped, then
non-alphanumeric runs collapsed to single hyphens. -/
def specCollapsedSlug (host : String) : String :=
  String.mk (specCollapseRuns false (stripProtocolAux host.toList))

/-- Observer: the `activePlatform` field of a persisted file (a legacy or
absent file has none). -/
def fileActivePlatform : StoredFile → Option String
  | .multi c => c.activePlatform
  | _ => none

/-- The credential-store invariant of the spec (§3): whenever
`activePlatform` is set, it keys into `platforms`. -/
def StoreInv (c : MultiPlatformConfig) : Prop :=
  ∀ k, c.activePlatform = some k → k ∈ JsObj.keys c.platforms

/-- The store invariant read on a persisted file; a legacy or absent file
has no `activePlatform`/`platforms` pair to constrain. -/
def FileInv : StoredFile → Prop
  | .multi c => StoreInv c
  | _ => True

/- ------------------------------------------------------------------ -/
/- Helper lemmas about the JS object model                             -/
/- ------------------------------------------------------------------ -/

namespace JsObj

variable {α : Type}

theorem lookup_eq_none_iff (l : List (String × α)) (key : String) :
    lookup l key = none ↔ key ∉ keys l := by
  induction l with
  | nil => simp [lookup, keys]
  | cons p rest ih =>
    obtain ⟨k, v⟩ := p
    by_cases h : k = key
    · subst h
      simp [lookup, keys]
    · simp [lookup, keys, h, ih, Ne.symm h]

theorem mem_keys_of_lookup_eq_some (l : List (String × α)) (key : String)
    (v : α) (h : lookup l key = some v) : key ∈ keys l := by
  by_contra hmem
  rw [← lookup_eq_none_iff] at hmem
  rw [hmem] at h
  exact Option.noConfusion h

theorem keys_set (l : List (String × α)) (key : String) (v : α) :
    keys (set l key v) =
      if key ∈ keys l then keys l else keys l ++ [key] := by
  induction l with
  | nil => simp [set, keys]
  | cons p rest ih =>
    obtain ⟨k, w⟩ := p
    by_cases h : k = key
    · subst h
      simp [set, keys]
    · have hk : keys ((k, w) :: set rest key v) = k :: keys (set rest key v) := rfl
      have hx : keys ((k, w) :: rest) = k :: keys rest := rfl
      simp only [set, if_neg h]
      rw [hk, hx, ih]
      by_cases hmem : key ∈ keys rest
      · rw [if_pos hmem, if_pos (List.mem_cons_of_mem _ hmem)]
      · rw [if_neg hmem, if_neg ?_]
        · rfl
        · intro hc
          rcases List.mem_cons.mp hc with h1 | h2
          · exact h h1.symm
          · exact hmem h2

theorem mem_keys_set (l : List (String × α)) (key : String) (v : α)
    (a : String) : a ∈ keys (set l key v) ↔ a = key ∨ a ∈ keys l := by
  rw [keys_set]
  by_cases h : key ∈ keys l
  · rw [if_pos h]
    constructor
    · exact Or.inr
    · rintro (rfl | ha)
      · exact h
      · exact ha
  · rw [if_neg h]
    rw [List.mem_append]
    constructor
    · rintro (ha | ha)
      · exact Or.inr ha
      · exact Or.inl (List.mem_singleton.mp ha)
    · rintro (rfl | ha)
      · exact Or.inr (List.mem_singleton.mpr rfl)
      · exact Or.inl ha

theorem mem_keys_del (l : List (String × α)) (key : String) (a : String) :
    a ∈ keys (del l key) ↔ a ∈ keys l ∧ a ≠ key := by
  constructor
  · intro h
    simp only [keys, del, List.mem_map] at h
    obtain ⟨p, hp, hpa⟩ := h
    rw [List.mem_filter] at hp
    refine ⟨List.mem_map.mpr ⟨p, hp.1, hpa⟩, ?_⟩
    subst hpa
    simpa using hp.2
  · rintro ⟨h, hne⟩
    simp only [keys, List.mem_map] at h
    obtain ⟨p, hp, hpa⟩ := h
    refine List.mem_map.mpr ⟨p, List.mem_filter.mpr ⟨hp, ?_⟩, hpa⟩
    subst hpa
    simpa using hne

theorem length_set (l : List (String × α)) (key : String) (v : α) :
    (set l key v).length =
      if key ∈ keys l then l.length else l.length + 1 := by
  induction l with
  | nil => simp [set, keys]
  | cons p rest ih =>
    obtain ⟨k, w⟩ := p
    by_cases h : k = key
    · subst h
      simp [set, keys]
    · simp only [set, if_neg h, List.length_cons, ih, keys, List.map_cons,
        List.mem_cons]
      by_cases hk : key ∈ keys rest
      · simp [keys] at hk
        simp [hk, Ne.symm h]
      · simp [keys] at hk
        simp [hk, Ne.symm h]

end JsObj

theorem loadMultiPlatformConfig_inv (f : StoredFile) (h : FileInv f) :
    StoreInv (loadMultiPlatformConfig f).1 ∧
      FileInv (loadMultiPlatformConfig f).2 := by
  cases f with
  | absent =>
    refine ⟨?_, trivial⟩
    intro k hk
    simp [loadMultiPlatformConfig] at hk
  | multi c => exact ⟨h, h⟩
  | legacy a =>
    have hstore :
        StoreInv (loadMultiPlatformConfig (.legacy a)).1 := by
      intro k hk
      simp only [loadMultiPlatformConfig, migrateSinglePlatformConfig] at hk ⊢
      simp only [Option.some_inj] at hk
      subst hk
      simp [JsObj.keys]
    exact ⟨hstore, hstore⟩

/- ------------------------------------------------------------------ -/
/- Claim theorems                                                      -/
/- ------------------------------------------------------------------ -/

def sampleEntry (pid : String) : PlatformEntry :=
  ⟨{ token := "tok-" ++ pid, host := "https://" ++ pid },
   { id := pid, name := pid, host := "https://" ++ pid }⟩

/-- C3: loading a legacy bare-AuthConfig file yields a multi-platform
config with exactly the one entry keyed by the PlatformInfo id
synthesized from the legacy host, that id as `activePlatform`, the
original AuthConfig preserved verbatim inside the entry, and the
upgraded shape persisted back before returning; loading an absent or
unparsable file yields `{platforms: {}}` without throwing (the embedding
is a total function) and without writing. -/
theorem loadMultiPlatformConfig_migrates_legacy (a : AuthConfig) :
    (loadMultiPlatformConfig (.legacy a)).1.activePlatform
        = some (generatePlatformInfo a.host).id ∧
    (loadMultiPlatformConfig (.legacy a)).1.platforms
        = [((generatePlatformInfo a.host).id,
            ⟨a, generatePlatformInfo a.host⟩)] ∧
    JsObj.lookup (loadMultiPlatformConfig (.legacy a)).1.platforms
        (generatePlatformInfo a.host).id
        = some ⟨a, generatePlatformInfo a.host⟩ ∧
    (loadMultiPlatformConfig (.legacy a)).2
        = .multi (loadMultiPlatformConfig (.legacy a)).1 ∧
    loadMultiPlatformConfig .absent
        = ({ activePlatform := none, platforms := [] }, .absent) := by
  refine ⟨rfl, rfl, ?_, rfl, rfl⟩
  simp [loadMultiPlatformConfig, migrateSinglePlatformConfig, JsObj.lookup]

/-- C4: `savePlatformConfig` on a store with zero platforms always makes
the saved platform active; on a store with at least one platform and a
set (JS-truthy) `activePlatform` that satisfies the store invariant, it
never changes `activePlatform`. -/
theorem savePlatformConfig_activation_rule :
    (∀ (platformId : String) (a : AuthConfig) (pinfo : PlatformInfo)
        (f : StoredFile),
        (loadMultiPlatformConfig f).1.platforms = [] →
        fileActivePlatform (savePlatformConfig platformId a pinfo f)
          = some platformId) ∧
    (∀ (platformId : String) (a : AuthConfig) (pinfo : PlatformInfo)
        (c : MultiPlatformConfig) (k : String),
        c.platforms ≠ [] → c.activePlatform = some k → k ≠ "" →
        k ∈ JsObj.keys c.platforms →
        fileActivePlatform (savePlatformConfig platformId a pinfo (.multi c))
          = some k) := by
  constructor
  · intro platformId a pinfo f h
    simp [savePlatformConfig, fileActivePlatform, h, JsObj.set]
  · intro platformId a pinfo c k hne hact hk hkmem
    have hjs : jsTruthy (some k) = true := by
      simp only [jsTruthy, Bool.not_eq_true']
      rw [Bool.eq_false_iff]
      intro hemp
      exact hk ((String.isEmpty_iff k).mp hemp)
    simp only [savePlatformConfig, loadMultiPlatformConfig, fileActivePlatform,
      hact, hjs, Bool.not_true, Bool.false_or]
    cases hb : ((JsObj.set c.platforms platformId ⟨a, pinfo⟩).length == 1) with
    | false => simp [hb, hact]
    | true =>
      have hlen : (JsObj.set c.platforms platformId ⟨a, pinfo⟩).length = 1 := by
        simpa using hb
      rw [JsObj.length_set] at hlen
      by_cases hmem : platformId ∈ JsObj.keys c.platforms
      · rw [if_pos hmem] at hlen
        obtain ⟨p, hp⟩ := List.length_eq_one.mp hlen
        rw [hp] at hmem hkmem
        obtain ⟨q, w⟩ := p
        have h1 : platformId = q := by simpa [JsObj.keys] using hmem
        have h2 : k = q := by simpa [JsObj.keys] using hkmem
        simp [h1, h2]
      · rw [if_neg hmem] at hlen
        have : c.platforms = [] := List.length_eq_zero.mp (by omega)
        exact absurd this hne

theorem savePlatformConfig_activation_rule_witness :
    fileActivePlatform
        (savePlatformConfig "quantcdn" { token := "t", host := "h" }
          { id := "quantcdn", name := "Quant Cloud", host := "h" } .absent)
      = some "quantcdn" ∧
    fileActivePlatform
        (savePlatformConfig "quantcdn" { token := "t", host := "h" }
          { id := "quantcdn", name := "Quant Cloud", host := "h" }
          (.multi { activePlatform := some "quantgov",
                    platforms := [("quantgov", sampleEntry "quantgov"),
                                  ("extra", sampleEntry "extra")] }))
      = some "quantgov" := by
  constructor
  · exact savePlatformConfig_activation_rule.1 "quantcdn" _ _ .absent rfl
  · exact savePlatformConfig_activation_rule.2 "quantcdn" _ _ _ "quantgov"
      (by decide) rfl (by decide) (by decide)

/-- C6: every credential-store operation preserves the invariant that a
set `activePlatform` keys into `platforms`, and the legacy migration
establishes it outright. -/
theorem credentialStoreOpsPreserveActiveKeyInvariant :
    (∀ (pid : String) (a : AuthConfig) (pinfo : PlatformInfo) (f : StoredFile),
        FileInv f → FileInv (savePlatformConfig pid a pinfo f)) ∧
    (∀ (pid : String) (f : StoredFile),
        FileInv f → FileInv (switchPlatform pid f).2) ∧
    (∀ (pid : String) (f : StoredFile),
        FileInv f → FileInv (removePlatform pid f).2) ∧
    (∀ (p : AuthPatch) (f : StoredFile),
        FileInv f → FileInv (saveActivePlatformConfig p f).2) ∧
    (∀ a : AuthConfig, FileInv (migrateSinglePlatformConfig a).2) := by
  refine ⟨?_, ?_, ?_, ?_, ?_⟩
  · intro pid a pinfo f hf
    obtain ⟨hload, _⟩ := loadMultiPlatformConfig_inv f hf
    simp only [savePlatformConfig, FileInv]
    intro k hk
    by_cases hcond :
        (!(jsTruthy (loadMultiPlatformConfig f).1.activePlatform)
          || (JsObj.set (loadMultiPlatformConfig f).1.platforms pid
                ⟨a, pinfo⟩).length == 1) = true
    · rw [if_pos hcond] at hk
      simp only [Option.some_inj] at hk
      subst hk
      exact (JsObj.mem_keys_set _ _ _ _).mpr (Or.inl rfl)
    · rw [if_neg hcond] at hk
      exact (JsObj.mem_keys_set _ _ _ _).mpr (Or.inr (hload k hk))
  · intro pid f hf
    obtain ⟨hload, hfile⟩ := loadMultiPlatformConfig_inv f hf
    simp only [switchPlatform]
    cases hl : JsObj.lookup (loadMultiPlatformConfig f).1.platforms pid with
    | none => exact hfile
    | some e =>
      intro k hk
      simp only [Option.some_inj] at hk
      subst hk
      exact JsObj.mem_keys_of_lookup_eq_some _ _ _ hl
  · intro pid f hf
    obtain ⟨hload, hfile⟩ := loadMultiPlatformConfig_inv f hf
    simp only [removePlatform]
    cases hl : JsObj.lookup (loadMultiPlatformConfig f).1.platforms pid with
    | none => exact hfile
    | some e =>
      intro k hk
      by_cases hcond :
          ((loadMultiPlatformConfig f).1.activePlatform == some pid) = true
      · rw [if_pos hcond] at hk
        cases hkeys : JsObj.keys
            (JsObj.del (loadMultiPlatformConfig f).1.platforms pid) with
        | nil => rw [hkeys] at hk; exact Option.noConfusion hk
        | cons q qs =>
          rw [hkeys] at hk
          simp only [Option.some_inj] at hk
          subst hk
          exact List.mem_cons_self _ _
      · rw [if_neg hcond] at hk
        have hkmem := hload k hk
        have hkne : k ≠ pid := by
          intro hkeq
          subst hkeq
          rw [hk] at hcond
          simp at hcond
        exact (JsObj.mem_keys_del _ _ _).mpr ⟨hkmem, hkne⟩
  · intro p f hf
    obtain ⟨hload, hfile⟩ := loadMultiPlatformConfig_inv f hf
    simp only [saveActivePlatformConfig]
    cases hact : (loadMultiPlatformConfig f).1.activePlatform with
    | none => exact hfile
    | some k0 =>
      dsimp only
      by_cases hemp : k0.isEmpty
      · rw [if_pos hemp]
        exact hfile
      · rw [if_neg hemp]
        cases hl : JsObj.lookup (loadMultiPlatformConfig f).1.platforms k0 with
        | none => exact hfile
        | some entry =>
          intro k hk
          simp only [Option.some_inj] at hk
          subst hk
          exact (JsObj.mem_keys_set _ _ _ _).mpr (Or.inl rfl)
  · intro a
    intro k hk
    simp only [migrateSinglePlatformConfig, Option.some_inj] at hk
    subst hk
    simp [JsObj.keys]

theorem credentialStoreOpsPreserveActiveKeyInvariant_witness :
    FileInv (savePlatformConfig "p1" { token := "t", host := "h" }
      { id := "p1", name := "P1", host := "h" }
      (.multi { activePlatform := some "quantgov",
                platforms := [("quantgov", sampleEntry "quantgov")] })) :=
  credentialStoreOpsPreserveActiveKeyInvariant.1 "p1" _ _ _
    (by intro k hk; simp only [Option.some_inj] at hk; subst hk; decide)

def legacyFileEx : StoredFile :=
  .legacy { token := "t1", host := "https://example.com" }

/-- C5 counterexample: `removePlatform` of a missing id on a
legacy-shaped persisted file returns false but does NOT leave the
persisted store byte-for-byte unchanged — the load step migrates the
legacy document and writes the upgraded multi-platform shape back even
though the removal itself is a no-op. -/
theorem removePlatform_missing_id_rewrites_legacy_file :
    (removePlatform "no-such-id" legacyFileEx).1 = false ∧
    (removePlatform "no-such-id" legacyFileEx).2 ≠ legacyFileEx := by
  decide

/-- C5 (amended): `removePlatform` of the currently active platform
reassigns `activePlatform` to some remaining entry's id if any entry
remains and unsets it if none remain; `removePlatform` of an id not in
the store returns false and — when the persisted file is already in
multi-platform shape, or absent — leaves the persisted store unchanged
(a legacy-shaped file is migrated and rewritten by the load step even on
this path); `removePlatform` of a present id returns true. -/
theorem removePlatform_spec :
    (∀ (pid : String) (c : MultiPlatformConfig),
        JsObj.lookup c.platforms pid = none →
        removePlatform pid (.multi c) = (false, .multi c)) ∧
    (∀ pid : String, removePlatform pid .absent = (false, .absent)) ∧
    (∀ (pid : String) (c : MultiPlatformConfig) (e : PlatformEntry),
        JsObj.lookup c.platforms pid = some e →
        (removePlatform pid (.multi c)).1 = true) ∧
    (∀ (pid : String) (c : MultiPlatformConfig) (e : PlatformEntry),
        JsObj.lookup c.platforms pid = some e →
        c.activePlatform = some pid →
        ∃ c', (removePlatform pid (.multi c)).2 = .multi c' ∧
          c'.platforms = JsObj.del c.platforms pid ∧
          (c'.platforms = [] → c'.activePlatform = none) ∧
          (c'.platforms ≠ [] →
            ∃ k, c'.activePlatform = some k ∧
              k ∈ JsObj.keys c'.platforms)) := by
  refine ⟨?_, ?_, ?_, ?_⟩
  · intro pid c h
    simp [removePlatform, loadMultiPlatformConfig, h]
  · intro pid
    rfl
  · intro pid c e h
    simp [removePlatform, loadMultiPlatformConfig, h]
  · intro pid c e hl hact
    refine ⟨{ activePlatform :=
                match JsObj.keys (JsObj.del c.platforms pid) with
                | [] => none
                | k :: _ => some k,
              platforms := JsObj.del c.platforms pid }, ?_, rfl, ?_, ?_⟩
    · simp [removePlatform, loadMultiPlatformConfig, hl, hact]
    · intro hnil
      have hd : JsObj.del c.platforms pid = [] := hnil
      simp [hd, JsObj.keys]
    · intro hne
      cases hkeys : JsObj.keys (JsObj.del c.platforms pid) with
      | nil => exact absurd (List.map_eq_nil_iff.mp hkeys) hne
      | cons q qs => exact ⟨q, rfl, List.mem_cons_self _ _⟩

theorem removePlatform_spec_witness :
    removePlatform "gone"
        (.multi { activePlatform := some "quantgov",
                  platforms := [("quantgov", sampleEntry "quantgov")] })
      = (false, .multi { activePlatform := some "quantgov",
                         platforms := [("quantgov", sampleEntry "quantgov")] }) ∧
    (removePlatform "quantgov"
        (.multi { activePlatform := some "quantgov",
                  platforms := [("quantgov", sampleEntry "quantgov")] })).1
      = true := by
  constructor
  · exact removePlatform_spec.1 "gone" _ (by decide)
  · exact removePlatform_spec.2.2.1 "quantgov" _ (sampleEntry "quantgov") (by decide)

theorem jsTruthy_some_of_ne (v : String) (h : v ≠ "") :
    jsTruthy (some v) = true := by
  simp only [jsTruthy, Bool.not_eq_true']
  rw [Bool.eq_false_iff]
  intro hemp
  exact h ((String.isEmpty_iff v).mp hemp)

theorem jsOr_eq_specLayeredValue (a b c : Option String)
    (ha : a ≠ some "") (hb : b ≠ some "") :
    jsOr a (jsOr b c) = specLayeredValue a b c := by
  cases a with
  | none =>
    have hn : jsTruthy (none : Option String) = false := rfl
    cases b with
    | none => simp [jsOr, hn, specLayeredValue]
    | some w =>
      have hw : w ≠ "" := fun h => hb (by rw [h])
      simp [jsOr, hn, jsTruthy_some_of_ne w hw, specLayeredValue]
  | some v =>
    have hv : v ≠ "" := fun h => ha (by rw [h])
    simp [jsOr, jsTruthy_some_of_ne v hv, specLayeredValue]

/-- C2: the effective context produced by `resolveEffectiveContext`
layers each of organization/application/environment as CLI override if
provided, else project-config field if present, else the stored
active-* field, else undefined (`specLayeredValue`); quantifying over
all presence combinations of the three sources per field (provided
values are JS-truthy, i.e. nonempty). -/
theorem resolveEffectiveContext_layering
    (ov : ContextOverrides) (pc : ProjectConfig) (f : StoredFile)
    (auth : AuthConfig)
    (hauth : (getActivePlatformConfig f).1 = some auth)
    (htok : auth.token ≠ "")
    (h1 : ov.org ≠ some "") (h2 : pc.org ≠ some "")
    (h3 : ov.app ≠ some "") (h4 : pc.app ≠ some "")
    (h5 : ov.env ≠ some "") (h6 : pc.env ≠ some "") :
    (resolveEffectiveContext ov pc f).1 = .ok
      { token := auth.token, host := auth.host, email := auth.email,
        expiresAt := auth.expiresAt, organizations := auth.organizations,
        activeOrganization :=
          specLayeredValue ov.org pc.org auth.activeOrganization,
        activeApplication :=
          specLayeredValue ov.app pc.app auth.activeApplication,
        activeEnvironment :=
          specLayeredValue ov.env pc.env auth.activeEnvironment } := by
  have htokE : auth.token.isEmpty = false := by
    rw [Bool.eq_false_iff]
    intro h
    exact htok ((String.isEmpty_iff _).mp h)
  simp only [resolveEffectiveContext, hauth, htokE, Bool.false_eq_true,
    if_false, jsOr_eq_specLayeredValue _ _ _ h1 h2,
    jsOr_eq_specLayeredValue _ _ _ h3 h4,
    jsOr_eq_specLayeredValue _ _ _ h5 h6]

def c2Store : StoredFile :=
  .multi { activePlatform := some "p",
           platforms := [("p",
             ⟨{ token := "tk", host := "hh",
                activeOrganization := some "stored-org",
                activeApplication := some "stored-app",
                activeEnvironment := some "stored-env" },
              { id := "p", name := "P", host := "hh" }⟩)] }

theorem resolveEffectiveContext_layering_witness :
    (resolveEffectiveContext { org := some "cli-org" }
        { env := some "proj-env" } c2Store).1
      = .ok { token := "tk", host := "hh",
              activeOrganization := some "cli-org",
              activeApplication := some "stored-app",
              activeEnvironment := some "proj-env" } := by
  have h := resolveEffectiveContext_layering { org := some "cli-org" }
    { env := some "proj-env" } c2Store
    { token := "tk", host := "hh",
      activeOrganization := some "stored-org",
      activeApplication := some "stored-app",
      activeEnvironment := some "stored-env" }
    rfl (by decide) (by decide) (by decide) (by decide) (by decide)
    (by decide) (by decide)
  rw [h]
  rfl

/-- C8: the config-file search never looks past a directory carrying the
version-control root marker: the result on a walk `below ++ git :: above`
does not depend on the directories above the marker at all, and when no
directory at or below the marker holds the config file the search
returns null even if a config file exists further up. -/
theorem findProjectConfigFile_stops_at_git_root
    (walkBelow : List Dir) (g : Dir) (walkAbove : List Dir)
    (hg : g.hasGit = true) :
    findProjectConfigFile (walkBelow ++ g :: walkAbove)
        = findProjectConfigFile (walkBelow ++ [g]) ∧
    ((∀ d ∈ walkBelow, d.hasConfig = false) → g.hasConfig = false →
      findProjectConfigFile (walkBelow ++ g :: walkAbove) = none) := by
  induction walkBelow with
  | nil =>
    constructor
    · by_cases hc : g.hasConfig
      · simp [findProjectConfigFile, hc]
      · simp [findProjectConfigFile, hc, hg]
    · intro _ hgc
      simp [findProjectConfigFile, hgc, hg]
  | cons d rest ih =>
    constructor
    · by_cases hc : d.hasConfig
      · simp [findProjectConfigFile, hc]
      · by_cases hgit : d.hasGit
        · simp [findProjectConfigFile, hc, hgit]
        · simpa [findProjectConfigFile, hc, hgit] using ih.1
    · intro hall hgc
      have hd : d.hasConfig = false := hall d (List.mem_cons_self _ _)
      by_cases hgit : d.hasGit
      · simp [findProjectConfigFile, hd, hgit]
      · have hrest : ∀ x ∈ rest, x.hasConfig = false :=
          fun x hx => hall x (List.mem_cons_of_mem _ hx)
        simpa [findProjectConfigFile, hd, hgit] using ih.2 hrest hgc

theorem findProjectConfigFile_stops_at_git_root_witness :
    findProjectConfigFile
        ([⟨false, false, "/repo/sub"⟩] ++
          ⟨false, true, "/repo"⟩ :: [⟨true, false, "/home"⟩])
      = none :=
  (findProjectConfigFile_stops_at_git_root [⟨false, false, "/repo/sub"⟩]
    ⟨false, true, "/repo"⟩ [⟨true, false, "/home"⟩] rfl).2 (by decide) rfl

/-- C9 counterexample: for the brand-free host `a..b` the code produces
the id `a--b` — each non-alphanumeric character is replaced by its own
hyphen — whereas the claimed collapsing of non-alphanumeric runs to a
single hyphen would produce `a-b`. -/
theorem generatePlatformInfo_keeps_hyphen_runs :
    (generatePlatformInfo "a..b").id = "a--b" ∧
    specCollapsedSlug "a..b" = "a-b" ∧
    (generatePlatformInfo "a..b").id ≠ specCollapsedSlug "a..b" ∧
    (generatePlatformInfo "a..b").name = "Custom Endpoint" := by
  decide

/-- C9 (amended): for hosts containing neither brand substring, the
synthesized PlatformInfo has `name = "Custom Endpoint"`, description
equal to the host, and an id whose i-th character is the i-th character
of the protocol-stripped host, replaced by a hyphen when it is not an
ASCII letter, digit, or hyphen (each offending character individually;
runs are not collapsed); hosts containing a known brand substring map to
that brand's fixed id, name, and description. -/
theorem generatePlatformInfo_spec (host : String) :
    (containsSubstr "quantgov.cloud".toList host.toList = true →
      generatePlatformInfo host
        = { id := "quantgov", name := "QuantGov Cloud", host := host,
            description := some "Government & Enterprise Platform" }) ∧
    (containsSubstr "quantgov.cloud".toList host.toList = false →
      containsSubstr "quantcdn.io".toList host.toList = true →
      generatePlatformInfo host
        = { id := "quantcdn", name := "Quant Cloud", host := host,
            description := some "Content Delivery Platform" }) ∧
    (containsSubstr "quantgov.cloud".toList host.toList = false →
      containsSubstr "quantcdn.io".toList host.toList = false →
      (generatePlatformInfo host).name = "Custom Endpoint" ∧
      (generatePlatformInfo host).description = some host ∧
      (∀ i : Nat, (generatePlatformInfo host).id.toList.get? i
          = ((stripProtocolAux host.toList).get? i).map slugChar)) := by
  refine ⟨?_, ?_, ?_⟩
  · intro h
    simp only [generatePlatformInfo]
    rw [if_pos h]
  · intro h1 h2
    have h1' : ¬ (containsSubstr "quantgov.cloud".toList host.toList = true) := by
      rw [h1]
      exact Bool.false_ne_true
    simp only [generatePlatformInfo]
    rw [if_neg h1', if_pos h2]
  · intro h1 h2
    have h1' : ¬ (containsSubstr "quantgov.cloud".toList host.toList = true) := by
      rw [h1]
      exact Bool.false_ne_true
    have h2' : ¬ (containsSubstr "quantcdn.io".toList host.toList = true) := by
      rw [h2]
      exact Bool.false_ne_true
    have hgen : generatePlatformInfo host
        = { id := hostSlug host, name := "Custom Endpoint", host := host,
            description := some host } := by
      simp only [generatePlatformInfo]
      rw [if_neg h1', if_neg h2']
    refine ⟨by rw [hgen], by rw [hgen], ?_⟩
    intro i
    rw [hgen]
    show ((stripProtocolAux host.toList).map slugChar).get? i
        = ((stripProtocolAux host.toList).get? i).map slugChar
    exact List.get?_map slugChar _ i

theorem generatePlatformInfo_spec_witness :
    (generatePlatformInfo "x_y.z").name = "Custom Endpoint" ∧
    (generatePlatformInfo "x_y.z").id.toList.get? 1 = some '-' := by
  have h := (generatePlatformInfo_spec "x_y.z").2.2 (by decide) (by decide)
  refine ⟨h.1, ?_⟩
  rw [h.2.2 1]
  decide

/-- C10: a stored record whose `expiresAt` is absent is never considered
expired, and the login flow's already-authenticated short-circuit
accepts any loaded record that has a truthy token and no `expiresAt`,
returning without re-prompting and without touching the store,
regardless of the current time. -/
theorem loginTreatsMissingExpiryAsValid :
    (∀ (parseTime : String → Option Int) (now : Int) (v : AuthView),
        v.expiresAt = none → isTokenExpired parseTime now v = false) ∧
    (∀ (envr : OAuthEnv) (endpointOpt : Option String)
        (selected : ServiceOption) (f : StoredFile) (v : AuthView),
        loadAuthConfig f = some v → jsTruthy v.token = true →
        v.expiresAt = none →
        handleLogin envr endpointOpt selected f
          = (.alreadyAuthenticated, f)) := by
  constructor
  · intro parseTime now v hv
    simp [isTokenExpired, hv]
  · intro envr endpointOpt selected f v hload htok hv
    have hshort : loginShortCircuits envr.parseTime envr.now f = true := by
      simp [loginShortCircuits, hload, htok, isTokenExpired, hv]
    simp [handleLogin, hshort]

def c10Env : OAuthEnv :=
  { state := "", callback := .timeout, tokenResp := .error "unused",
    userResp := .error "unused", now := 99999999,
    parseTime := fun _ => none, formatTime := fun _ => "" }

def sampleService : ServiceOption :=
  { name := "Quant Cloud - Content Delivery Platform", value := "quantcdn",
    host := "https://dashboard.quantcdn.io",
    description := "dashboard.quantcdn.io" }

theorem loginTreatsMissingExpiryAsValid_witness :
    isTokenExpired (fun _ => none) 99999999 ⟨some "tok", none, none⟩ = false ∧
    handleLogin c10Env none sampleService
        (.legacy { token := "tok", host := "h" })
      = (.alreadyAuthenticated, .legacy { token := "tok", host := "h" }) := by
  constructor
  · exact loginTreatsMissingExpiryAsValid.1 _ _ _ rfl
  · exact loginTreatsMissingExpiryAsValid.2 c10Env none sampleService _
      ⟨some "tok", none, none⟩ rfl (by decide) rfl

/-- Description of a failing login environment: the callback carries an
authorization error, or a state different from the one generated for
this attempt, or never arrives before the timeout, or the token exchange
fails, or the user-info fetch fails. -/
def loginFailureEnv (envr : OAuthEnv) : Prop :=
  (∃ e st code, envr.callback = .request e st code ∧ jsTruthy e = true) ∨
  (∃ e st code, envr.callback = .request e st code ∧ jsTruthy e = false ∧
    st ≠ some envr.state) ∨
  envr.callback = .timeout ∨
  (∃ m, envr.tokenResp = .error m) ∨
  (∃ m, envr.userResp = .error m)

/-- C7: a login attempt that proceeds past the already-authenticated
short-circuit and then fails — authorization error, state mismatch,
timeout, token-exchange failure, or user-info fetch failure — rejects
with an error and leaves the persisted credential store exactly as it
was. -/
theorem failed_login_leaves_store_unchanged
    (envr : OAuthEnv) (endpointOpt : Option String) (selected : ServiceOption)
    (f : StoredFile)
    (hshort : loginShortCircuits envr.parseTime envr.now f = false)
    (hfail : loginFailureEnv envr) :
    (∃ m, (handleLogin envr endpointOpt selected f).1 = .failure m) ∧
    (handleLogin envr endpointOpt selected f).2 = f := by
  simp only [handleLogin, hshort, Bool.false_eq_true, if_false]
  cases hcb : startCallbackServer envr.state envr.callback with
  | error m => exact ⟨⟨m, rfl⟩, rfl⟩
  | ok code =>
    cases hcode : jsTruthy code with
    | false =>
      simp only [hcode, Bool.not_false, if_true]
      exact ⟨⟨_, rfl⟩, trivial⟩
    | true =>
      simp only [hcode, Bool.not_true, Bool.false_eq_true, if_false]
      cases htr : envr.tokenResp with
      | error m => exact ⟨⟨_, rfl⟩, rfl⟩
      | ok td =>
        cases hur : envr.userResp with
        | error m => exact ⟨⟨_, rfl⟩, rfl⟩
        | ok ui =>
          exfalso
          rcases hfail with ⟨e, st, code', hc, he⟩ |
            ⟨e, st, code', hc, he, hst⟩ | hc | ⟨m, hm⟩ | ⟨m, hm⟩
          · rw [hc] at hcb
            simp [startCallbackServer, he] at hcb
          · rw [hc] at hcb
            simp [startCallbackServer, he, hst] at hcb
          · rw [hc] at hcb
            simp [startCallbackServer] at hcb
          · rw [hm] at htr
            exact Except.noConfusion htr
          · rw [hm] at hur
            exact Except.noConfusion hur

def stateMismatchEnv : OAuthEnv :=
  { state := "expected-state",
    callback := .request none (some "attacker-state") (some "c"),
    tokenResp := .error "unused", userResp := .error "unused", now := 0,
    parseTime := fun _ => none, formatTime := fun _ => "" }

theorem failed_login_leaves_store_unchanged_witness :
    (∃ m, (handleLogin stateMismatchEnv none sampleService .absent).1
      = .failure m) ∧
    (handleLogin stateMismatchEnv none sampleService .absent).2 = .absent :=
  failed_login_leaves_store_unchanged stateMismatchEnv none sampleService
    .absent rfl
    (Or.inr (Or.inl ⟨none, some "attacker-state", some "c", rfl, rfl,
      by decide⟩))

def preLoginStore : StoredFile :=
  .multi { activePlatform := some "quantgov",
           platforms := [("quantgov", sampleEntry "quantgov")] }

def successEnv : OAuthEnv :=
  { state := "s1", callback := .request none (some "s1") (some "code1"),
    tokenResp := .ok { access_token := "new-token",
                       refresh_token := some "r1", expires_in := 3600 },
    userResp := .ok { email := "user@example.com", name := "User Name",
                      organizations := [] },
    now := 0, parseTime := fun _ => none,
    formatTime := fun _ => "2026-01-01T00:00:00.000Z" }

def postLoginFile : StoredFile :=
  .legacy { token := "new-token", refreshToken := some "r1",
            expiresAt := some "2026-01-01T00:00:00.000Z",
            email := some "user@example.com",
            host := "https://dashboard.quantcdn.io",
            organizations := some [], activeOrganization := none }

/-- C1 (code-bug evidence): a fully successful OAuth login persists its
credential with `saveAuthConfig`, overwriting the credentials file with a
bare single-platform AuthConfig document — it does not go through
`savePlatformConfig` — so a platform entry present in the store before
the login (here `quantgov`) is gone afterwards, including after the next
load's migration of the overwritten file. -/
theorem login_success_discards_existing_platforms :
    JsObj.lookup (loadMultiPlatformConfig preLoginStore).1.platforms
        "quantgov" = some (sampleEntry "quantgov") ∧
    (handleLogin successEnv none sampleService preLoginStore).1 = .success ∧
    (handleLogin successEnv none sampleService preLoginStore).2
      = postLoginFile ∧
    JsObj.lookup (loadMultiPlatformConfig
        (handleLogin successEnv none sampleService preLoginStore).2).1.platforms
        "quantgov" = none := by
  refine ⟨by decide, by decide, by decide, by decide⟩

end QuantCloudCLI
